import Mathlib

/-!
Verification of the okfp effect-type library (Option, Either, Validation,
Task, TaskEither) against its specification.

Each TypeScript sum type is embedded as a Lean inductive; each combinator is
translated directly from the source file it lives in.  TypeScript union error
types (`E | EE`) are embedded by working at a single error type, under which
the source's `forceCast` helpers are identities; where the source returns the
receiver object through such a cast, the embedding rebuilds the same variant
from the matched branch.  Caller-supplied callbacks are plain Lean functions;
"the callback is never invoked" is captured by the result being the same for
every callback, which the universally quantified statements below express.

The deferred families (Task, TaskEither) are embedded in a producer-counting
world: a JavaScript thunk `() => Promise<b>` becomes `Nat → b × Nat`, where
the `Nat` counts how many invocations of underlying asynchronous producers
have happened so far.  Awaiting on the single-threaded event loop becomes
state threading; each base producer advances the counter by one when (and
only when) it is invoked.
-/

namespace OkFp

/-- Embeds `Option<T>` from `src/option/model.ts` / `option.ts`: the `NONE`
sentinel becomes a zero-payload variant, `Some<T>` carries one value. -/
inductive Option (α : Type) where
  | none : Option α
  | some (value : α) : Option α
  deriving DecidableEq

/-- Embeds `Option.match(onNone, onSome)` from `option.ts` (named `matchWith`
because `match` is a Lean keyword): dispatch on the variant; `onNone` is a
thunk. -/
def Option.matchWith : Option α → (Unit → β) → (α → β) → β
  | Option.none, onNone, _ => onNone ()
  | Option.some v, _, onSome => onSome v

/-- Embeds `Option.flatMap` from `option.ts`: on None the source returns the
receiver through `forceCast`; the embedding rebuilds the None variant. -/
def Option.flatMap (o : Option α) (mapper : α → Option β) : Option β :=
  o.matchWith (fun _ => Option.none) (fun value => mapper value)

/-- Embeds `Option.toArray` from `option.ts`. -/
def Option.toArray (o : Option α) : List α :=
  o.matchWith (fun _ => []) (fun val => [val])

/-- Embeds the loop body of `sequence` from `src/option/constructors.ts`:
`const [value] = opt.toArray(); if (!value) return none; out.push(value)`.
Destructuring an empty array yields `undefined`, which is falsy; a present
value is additionally tested by JavaScript truthiness, embedded by the
explicit `falsy` predicate of the host value type. -/
def Option.sequenceLoop (falsy : α → Bool) : List (Option α) → List α → Option (List α)
  | [], out => Option.some out
  | opt :: rest, out =>
      match opt.toArray with
      | [] => Option.none
      | value :: _ =>
          if falsy value then Option.none
          else Option.sequenceLoop falsy rest (out ++ [value])

/-- Embeds `sequence` from `src/option/constructors.ts` (the option helpers):
iterate the array with an accumulator, starting from the empty `out` array. -/
def Option.sequence (falsy : α → Bool) (opts : List (Option α)) : Option (List α) :=
  Option.sequenceLoop falsy opts []

/-- Embeds `EitherValue<E,T>` from `src/either/model.ts`: `Left<E>` and
`Right<T>`. -/
inductive Either (ε α : Type) where
  | left (error : ε) : Either ε α
  | right (value : α) : Either ε α
  deriving DecidableEq

/-- Embeds `Either.match(onLeft, onRight)` from `src/either/either.ts`. -/
def Either.matchWith : Either ε α → (ε → β) → (α → β) → β
  | Either.left e, onLeft, _ => onLeft e
  | Either.right v, _, onRight => onRight v

/-- Embeds `Either.flatMap` from `src/either/either.ts`: on Left the source
returns the receiver through `forceCast`; the embedding rebuilds the Left. -/
def Either.flatMap (e : Either ε α) (mapper : α → Either ε β) : Either ε β :=
  e.matchWith (fun l => Either.left l) (fun r => mapper r)

/-- Embeds `Either.map` from `src/either/either.ts`, defined via `flatMap`
exactly as in the source. -/
def Either.map (e : Either ε α) (mapper : α → β) : Either ε β :=
  e.flatMap (fun r => Either.right (mapper r))

/-- Embeds `Either.ap` from `src/either/either.ts`:
`this.flatMap((fn) => arg.map((right) => fn(right)))`. -/
def Either.ap (self : Either ε (α → β)) (arg : Either ε α) : Either ε β :=
  self.flatMap (fun fn => arg.map (fun r => fn r))

/-- Embeds `Either.zip` from `src/either/either.ts`:
`either.map((value) => (a) => [value, a]).ap(eitherA)`. -/
def Either.zip (e : Either ε α) (eitherA : Either ε β) : Either ε (α × β) :=
  (e.map (fun value => fun a => (value, a))).ap eitherA

/-- Embeds `EitherResult<E,T>` from `src/either/model.ts`:
`{ok:true, value}` or `{ok:false, error}`. -/
inductive EitherResult (ε α : Type) where
  | ok (value : α) : EitherResult ε α
  | err (error : ε) : EitherResult ε α
  deriving DecidableEq

/-- Embeds `Either.toResult` from `src/either/either.ts`. -/
def Either.toResult (e : Either ε α) : EitherResult ε α :=
  e.matchWith (fun error => EitherResult.err error) (fun value => EitherResult.ok value)

/-- True exactly on the Right variant (used to state specifications). -/
def Either.isRight : Either ε α → Bool
  | Either.left _ => false
  | Either.right _ => true

/-- The Right payloads of a list of Eithers, in order (specification helper). -/
def Either.rightsOf : List (Either ε α) → List α
  | [] => []
  | Either.left _ :: rest => Either.rightsOf rest
  | Either.right v :: rest => v :: Either.rightsOf rest

/-- Embeds `ValidationValue<E,T>` from `src/validation/model.ts`: `Valid<T>`
carries one value, `Invalid<E>` carries an ordered error array. -/
inductive Validation (ε α : Type) where
  | invalid (errors : List ε) : Validation ε α
  | valid (value : α) : Validation ε α
  deriving DecidableEq

/-- Embeds `Validation.match(onInvalid, onValid)` from
`src/validation/validation.ts`. -/
def Validation.matchWith : Validation ε α → (List ε → β) → (α → β) → β
  | Validation.invalid es, onInvalid, _ => onInvalid es
  | Validation.valid v, _, onValid => onValid v

/-- Embeds `Validation.map` from `src/validation/validation.ts`: on Invalid
the source returns the receiver through `forceCast`; the embedding rebuilds
the Invalid with the same errors. -/
def Validation.map (v : Validation ε α) (mapper : α → β) : Validation ε β :=
  v.matchWith (fun es => Validation.invalid es) (fun a => Validation.valid (mapper a))

/-- Embeds `Validation.ap` from `src/validation/validation.ts`: the nested
`match` with the four receiver/argument variant combinations; when both are
Invalid the errors are `[...errors1, ...errors2]`. -/
def Validation.ap (self : Validation ε (α → β)) (arg : Validation ε α) : Validation ε β :=
  self.matchWith
    (fun errors1 =>
      arg.matchWith
        (fun errors2 => Validation.invalid (errors1 ++ errors2))
        (fun _ => Validation.invalid errors1))
    (fun fn =>
      arg.matchWith
        (fun errors2 => Validation.invalid errors2)
        (fun v => Validation.valid (fn v)))

/-- Embeds `Validation.zip` from `src/validation/validation.ts`:
`validation.map((value) => (a) => [value, a]).ap(valA)`. -/
def Validation.zip (v : Validation ε α) (valA : Validation ε β) : Validation ε (α × β) :=
  (v.map (fun value => fun a => (value, a))).ap valA

/-- Embeds `Validation.filterOrElse` from `src/validation/validation.ts`:
Invalid is returned unchanged; a Valid value failing the predicate becomes
`Invalid([onInvalid()])`. -/
def Validation.filterOrElse (v : Validation ε α) (predicate : α → Bool)
    (onInvalid : Unit → ε) : Validation ε α :=
  v.matchWith
    (fun _ => v)
    (fun a => if predicate a then v else Validation.invalid [onInvalid ()])

/-- Embeds `valid` from `src/validation/constructors.ts`:
`createValidation({ valid: value })`. -/
def valid (value : α) : Validation ε α :=
  Validation.valid value

/-- Embeds `invalid` from `src/validation/constructors.ts`:
`createValidation({ invalid: [error] })` — a one-element error array. -/
def invalid (error : ε) : Validation ε α :=
  Validation.invalid [error]

/-- Embeds `fromEither` from `src/validation/constructors.ts`. -/
def Validation.fromEither (e : Either ε α) : Validation ε α :=
  e.matchWith (fun error => OkFp.invalid error) (fun value => OkFp.valid value)

/-- Embeds `fromOption` from `src/validation/constructors.ts`. -/
def Validation.fromOption (opt : Option α) (onNone : Unit → ε) : Validation ε α :=
  opt.matchWith (fun _ => OkFp.invalid (onNone ())) (fun value => OkFp.valid value)

/-- Embeds `map2` from `src/validation/helpers.ts`:
`valA.map((a) => (b) => mapper(a, b)).ap(valB)`. -/
def Validation.map2 (valA : Validation ε α) (valB : Validation ε β)
    (mapper : α → β → γ) : Validation ε γ :=
  (valA.map (fun a => fun b => mapper a b)).ap valB

/-- Embeds `map3` from `src/validation/helpers.ts`. -/
def Validation.map3 (valA : Validation ε α) (valB : Validation ε β)
    (valC : Validation ε γ) (mapper : α → β → γ → δ) : Validation ε δ :=
  ((valA.map (fun a => fun b => fun c => mapper a b c)).ap valB).ap valC

/-- Embeds the loop of `sequence` from `src/validation/helpers.ts`: one pass
over the list pushing every Invalid's errors into `errors` and every Valid
value into `values` (both by appending at the end, as `push` does). -/
def Validation.sequenceStep (acc : List ε × List α) (v : Validation ε α) :
    List ε × List α :=
  v.matchWith
    (fun errs => (acc.1 ++ errs, acc.2))
    (fun value => (acc.1, acc.2 ++ [value]))

/-- Embeds `sequence` from `src/validation/helpers.ts`: run the loop, then
return `Invalid(errors)` when `errors.length > 0`, else `Valid(values)`. -/
def Validation.sequence (validations : List (Validation ε α)) : Validation ε (List α) :=
  let acc := validations.foldl Validation.sequenceStep ([], [])
  if acc.1.length > 0 then Validation.invalid acc.1 else Validation.valid acc.2

/-- True exactly on the Invalid variant (specification helper). -/
def Validation.isInvalid : Validation ε α → Bool
  | Validation.invalid _ => true
  | Validation.valid _ => false

/-- The error list contributed by one Validation (specification helper). -/
def Validation.errsOf : Validation ε α → List ε
  | Validation.invalid es => es
  | Validation.valid _ => []

/-- The value list contributed by one Validation (specification helper). -/
def Validation.valsOf : Validation ε α → List α
  | Validation.invalid _ => []
  | Validation.valid v => [v]

/-- Wellformedness of a Validation value: an Invalid never carries an empty
error array (the invariant stated in the spec's data model). -/
def Validation.wfb : Validation ε α → Bool
  | Validation.invalid es => !es.isEmpty
  | Validation.valid _ => true

/-- A JavaScript thunk `() => Promise<b>` in the producer-counting world:
from a count of producer invocations already performed, yield the value the
promise settles with together with the updated count. -/
def PThunk (β : Type) := Nat → β × Nat

/-- Embeds `TaskEither<E,T>` from `src/taskEither/taskEither.ts` /
`model.ts`: the state is one re-invokable thunk producing an Either. -/
structure TaskEither (ε α : Type) where
  thunk : PThunk (Either ε α)

/-- Embeds `run: () => thunk()` from `src/taskEither/taskEither.ts` line 132:
running is exactly invoking the wrapped thunk, with no caching layer. -/
def TaskEither.run (te : TaskEither ε α) : PThunk (Either ε α) :=
  te.thunk

/-- An underlying asynchronous producer: invoking it advances the invocation
counter by one and yields its Either.  This is the counting model of the
`() => Promise.resolve(...)` / promise-backed thunks the constructors wrap. -/
def producerThunk (mk : Unit → Either ε α) : PThunk (Either ε α) :=
  fun n => (mk (), n + 1)

/-- Embeds `taskEither` from `src/taskEither/constructors.ts`:
`createTaskEither(() => Promise.resolve(right(value)))`. -/
def taskEither (value : α) : TaskEither ε α :=
  TaskEither.mk (producerThunk (fun _ => Either.right value))

/-- Embeds `taskLeft` from `src/taskEither/constructors.ts`. -/
def taskLeft (error : ε) : TaskEither ε α :=
  TaskEither.mk (producerThunk (fun _ => Either.left error))

/-- Embeds `fromEither` from `src/taskEither/constructors.ts`. -/
def TaskEither.fromEither (e : Either ε α) : TaskEither ε α :=
  TaskEither.mk (producerThunk (fun _ => e))

/-- Embeds `TaskEither.flatMap` from `src/taskEither/taskEither.ts`: the new
thunk awaits the original, then on Left resolves with the same Left (the
source's `Promise.resolve(left(leftVal))`, which invokes no producer) and on
Right runs the mapper's TaskEither. -/
def TaskEither.flatMap (te : TaskEither ε α) (mapper : α → TaskEither ε β) :
    TaskEither ε β :=
  TaskEither.mk (fun n =>
    let step := te.thunk n
    step.1.matchWith
      (fun leftVal => (Either.left leftVal, step.2))
      (fun rightVal => (mapper rightVal).run step.2))

/-- Embeds `TaskEither.map` from `src/taskEither/taskEither.ts`:
`te.flatMap((rightVal) => createTaskEither(() => Promise.resolve(right(mapper(rightVal)))))`
— the inner wrapper resolves immediately and invokes no underlying
producer. -/
def TaskEither.map (te : TaskEither ε α) (mapper : α → β) : TaskEither ε β :=
  te.flatMap (fun rightVal =>
    TaskEither.mk (fun n => (Either.right (mapper rightVal), n)))

/-- Embeds `TaskEither.ap` from `src/taskEither/taskEither.ts`:
`Promise.all([this.run(), arg.run()])` starts both producers before the
combination step, then applies `Either.ap` to the two settled Eithers; on the
single-threaded event loop the two awaited producers' effects interleave,
embedded here by threading the counter through both runs. -/
def TaskEither.ap (self : TaskEither ε (α → β)) (arg : TaskEither ε α) :
    TaskEither ε β :=
  TaskEither.mk (fun n =>
    let stepFn := self.run n
    let stepA := arg.run stepFn.2
    (Either.ap stepFn.1 stepA.1, stepA.2))

/-- Embeds `TaskEither.zip` from `src/taskEither/taskEither.ts`:
`te.map((value) => (a) => [value, a]).ap(other)`. -/
def TaskEither.zip (te : TaskEither ε α) (other : TaskEither ε β) :
    TaskEither ε (α × β) :=
  (te.map (fun value => fun a => (value, a))).ap other

/-- Embeds `TaskEither.orElse` from `src/taskEither/taskEither.ts`: await the
original; on Left run the fallback's TaskEither, on Right resolve with the
same Either. -/
def TaskEither.orElse (te : TaskEither ε α) (fallback : ε → TaskEither ε α) :
    TaskEither ε α :=
  TaskEither.mk (fun n =>
    let step := te.thunk n
    step.1.matchWith
      (fun leftVal => (fallback leftVal).run step.2)
      (fun _ => (step.1, step.2)))

/-- Embeds the `Promise.all(taskEithers.map((te) => te.run()))` part of `all`
from `src/taskEither/helpers.ts`: every element's producer is invoked (all
participants settle), and their Eithers are collected in the callers' array
order. -/
def TaskEither.runAll : List (TaskEither ε α) → PThunk (List (Either ε α))
  | [] => fun n => ([], n)
  | te :: rest => fun n =>
      let step := te.run n
      let steps := TaskEither.runAll rest step.2
      (step.1 :: steps.1, steps.2)

/-- Embeds the combination loop of `all` from `src/taskEither/helpers.ts`:
walk the settled Eithers in order with the `out` accumulator; the first
`!result.ok` returns that Left, otherwise push the value and continue; if the
loop finishes, return `right(out)`. -/
def TaskEither.allLoop : List (Either ε α) → List α → Either ε (List α)
  | [], out => Either.right out
  | e :: rest, out =>
      match e.toResult with
      | EitherResult.err error => Either.left error
      | EitherResult.ok value => TaskEither.allLoop rest (out ++ [value])

/-- Embeds `all` from `src/taskEither/helpers.ts`: a new TaskEither whose
thunk awaits all participants and then runs the combination loop. -/
def TaskEither.all (taskEithers : List (TaskEither ε α)) : TaskEither ε (List α) :=
  TaskEither.mk (fun n =>
    let steps := TaskEither.runAll taskEithers n
    (TaskEither.allLoop steps.1 [], steps.2))

/-- How a caller-supplied `thunk: () => Promise<T>` can behave when invoked:
throw synchronously before returning a promise, return a promise that
rejects, or return a promise that resolves. -/
inductive ThunkBehavior (ω α : Type) where
  | throws (err : ω) : ThunkBehavior ω α
  | rejects (err : ω) : ThunkBehavior ω α
  | resolves (value : α) : ThunkBehavior ω α
  deriving DecidableEq

/-- What invoking `run()` can observably do: throw a host-level exception
synchronously, or return a promise that settles with the given result. -/
inductive RunOutcome (ω β : Type) where
  | thrown (err : ω) : RunOutcome ω β
  | settled (result : β) : RunOutcome ω β
  deriving DecidableEq

/-- Embeds `run()` of the TaskEither built by `tryCatch(thunk, onThrow)` from
`src/taskEither/constructors.ts`: run is the wrapped arrow
`() => thunk().then((value) => right(value), (err) => left(onThrow(err)))`.
Evaluation order of the arrow body: `thunk()` is evaluated first, so a
synchronous throw escapes before `.then` can attach its handlers; a rejection
of the returned promise is routed to the second `.then` callback and a
resolution to the first. -/
def tryCatchRun (thunk : ThunkBehavior ω α) (onThrow : ω → ε) :
    RunOutcome ω (Either ε α) :=
  match thunk with
  | ThunkBehavior.throws err => RunOutcome.thrown err
  | ThunkBehavior.rejects err => RunOutcome.settled (Either.left (onThrow err))
  | ThunkBehavior.resolves value => RunOutcome.settled (Either.right value)

/-- Embeds `Task<T>` in the producer-counting world: a re-invokable thunk
producing a plain value (the always-succeeding deferred family). -/
structure Task (α : Type) where
  thunk : PThunk α

/-- Running a Task invokes its thunk. -/
def Task.run (t : Task α) : PThunk α :=
  t.thunk

/-- Modelled from the spec: the Task implementation (`createTask`, `task`) is
absent from the source snapshot (`src/unnamed/part_011` only declares stubs
that throw "Not implemented", and `src/task/task.ts`, which
`taskEither/taskEither.ts` imports `createTask` from, is not in the
snapshot).  Spec section 4.4: `task` wraps a single re-invokable producer of
a future value; invoking the producer is one counter tick. -/
def Task.task (value : α) : Task α :=
  Task.mk (fun n => (value, n + 1))

/-- Modelled from the spec: `all(tasks)` is absent from the snapshot (the
stub throws).  Spec section 4.4: "start every element concurrently, then
combine in original order once every one of them resolves; for an empty
input sequence resolves immediately with an empty sequence."  Every
element's producer is invoked once, the settled values are combined
positionally, and the empty list invokes nothing. -/
def Task.allThunk : List (Task α) → PThunk (List α)
  | [] => fun n => ([], n)
  | t :: rest => fun n =>
      let step := t.run n
      let steps := Task.allThunk rest step.2
      (step.1 :: steps.1, steps.2)

/-- Modelled from the spec (see `Task.allThunk`): the Task combining all
elements' results in the callers' order. -/
def Task.all (tasks : List (Task α)) : Task (List α) :=
  Task.mk (Task.allThunk tasks)

/-- C1: a Left Either short-circuits every combinator: `map`, `flatMap`, `ap`
and `zip` on `Left(e)` return `Left(e)` unchanged, and for
`Left(e1).ap(Left(e2))` the receiver's error wins.  The caller-supplied
functions `f`, `g` and the arguments are universally quantified and absent
from every right-hand side, so no caller function is ever invoked: the
result is the same for every choice of callback. -/
theorem either_left_short_circuit {ε α β : Type} (e e₂ : ε) (f : α → β)
    (g : α → Either ε β) (x : Either ε α) (other : Either ε β) :
    (Either.left e : Either ε α).map f = Either.left e
    ∧ (Either.left e : Either ε α).flatMap g = Either.left e
    ∧ (Either.left e : Either ε (α → β)).ap x = Either.left e
    ∧ (Either.left e : Either ε α).zip other = Either.left e
    ∧ (Either.left e : Either ε (α → β)).ap (Either.left e₂) = Either.left e :=
  ⟨rfl, rfl, rfl, rfl, rfl⟩

/-- C2: `Invalid(e1).ap(Invalid(e2))` on Validation is Invalid with exactly
`e1 ++ e2`, the receiver's errors first.  An Invalid receiver carries no
wrapped mapper function at all, and the result is determined by the two
error lists alone, so no mapper is ever invoked. -/
theorem validation_ap_accumulates {ε α β : Type} (e₁ e₂ : List ε) :
    (Validation.invalid e₁ : Validation ε (α → β)).ap (Validation.invalid e₂)
      = Validation.invalid (e₁ ++ e₂) :=
  rfl

/-- C9: monad associativity holds for Option and Either:
`m.flatMap(f).flatMap(g)` equals `m.flatMap(x => f(x).flatMap(g))` for every
value and every pair of Kleisli functions of either family. -/
theorem monad_associativity {ε α β γ : Type}
    (m : Option α) (f : α → Option β) (g : β → Option γ)
    (me : Either ε α) (fe : α → Either ε β) (ge : β → Either ε γ) :
    (m.flatMap f).flatMap g = m.flatMap (fun x => (f x).flatMap g)
    ∧ (me.flatMap fe).flatMap ge = me.flatMap (fun x => (fe x).flatMap ge) := by
  constructor
  · cases m <;> rfl
  · cases me <;> rfl

/-- C3 counterexample: a thunk that throws synchronously is not converted to
a Left.  At the concrete input `throws 0` with `onThrow = id`, `run()` of
`tryCatch(thunk, onThrow)` throws the error out of `run()` instead of
settling with `Left(onThrow(0))`, refuting the claim that a synchronous
exception is treated identically to an asynchronous rejection. -/
theorem tryCatch_sync_throw_counterexample :
    tryCatchRun (ThunkBehavior.throws (0 : Nat)) (fun e : Nat => e)
        = (RunOutcome.thrown 0 : RunOutcome Nat (Either Nat Nat))
    ∧ tryCatchRun (ThunkBehavior.throws (0 : Nat)) (fun e : Nat => e)
        ≠ (RunOutcome.settled (Either.left 0) : RunOutcome Nat (Either Nat Nat)) :=
  ⟨rfl, by decide⟩

/-- C3 (amended): running the TaskEither built by `tryCatch(thunk, onThrow)`
yields `Left(onThrow(err))` whenever the thunk's promise rejects and
`Right(value)` when it resolves — a rejection never escapes `run()` — but a
synchronous exception thrown by `thunk()` itself is not caught: `thunk()` is
evaluated before `.then` attaches the handlers, so the exception propagates
out of `run()` unconverted. -/
theorem tryCatch_spec {ω ε α : Type} (onThrow : ω → ε) (err : ω) (value : α) :
    tryCatchRun (ThunkBehavior.rejects err : ThunkBehavior ω α) onThrow
        = RunOutcome.settled (Either.left (onThrow err))
    ∧ tryCatchRun (ThunkBehavior.resolves value : ThunkBehavior ω α) onThrow
        = RunOutcome.settled (Either.right value)
    ∧ tryCatchRun (ThunkBehavior.throws err : ThunkBehavior ω α) onThrow
        = RunOutcome.thrown err :=
  ⟨rfl, rfl, rfl⟩

/-- C10: `Option.sequence` from `src/option/constructors.ts` checks each
extracted element with JavaScript truthiness (`if (!value)`), so an array
whose every element is Some still yields None as soon as one contained value
is falsy: with numbers, `sequence([some(0)])` is None, although the
function's own documentation says Some arrays of all values are returned and
None only when an element is None; truthy values behave as documented. -/
theorem option_sequence_falsy_failing :
    Option.sequence (fun n : Nat => n == 0) [Option.some 0] = Option.none
    ∧ Option.sequence (fun n : Nat => n == 0) [Option.some 1, Option.some 2]
        = Option.some [1, 2] := by
  decide

/-- C5: TaskEither values are pure descriptions.  For each of `map`,
`flatMap`, `ap`, `zip` and `orElse` applied to constructor-built values, one
`run()` starting from an arbitrary producer-invocation count `n` performs
exactly the underlying producers' invocations (the count after one run is
`n + k` for the `k` producers involved, so deriving the value beforehand
invoked none of them), and a second `run()` performs them all again while
returning the same Either — the count reaches `n + 2k` and no result is
memoized between calls. -/
theorem taskEither_pure_description {ε α β : Type} (v : α) (b : β) (e : ε)
    (f : α → β) (g : α → α) (fn : α → β) (n : Nat) :
    (((taskEither v : TaskEither ε α).map f).run n = (Either.right (f v), n + 1)
      ∧ ((taskEither v : TaskEither ε α).map f).run
          ((((taskEither v : TaskEither ε α).map f).run n).2)
          = (Either.right (f v), n + 2))
    ∧ (((taskEither v : TaskEither ε α).flatMap (fun a => taskEither (g a))).run n
          = (Either.right (g v), n + 2)
      ∧ ((taskEither v : TaskEither ε α).flatMap (fun a => taskEither (g a))).run
          ((((taskEither v : TaskEither ε α).flatMap (fun a => taskEither (g a))).run n).2)
          = (Either.right (g v), n + 4))
    ∧ (((taskEither fn : TaskEither ε (α → β)).ap (taskEither v)).run n
          = (Either.right (fn v), n + 2)
      ∧ ((taskEither fn : TaskEither ε (α → β)).ap (taskEither v)).run
          ((((taskEither fn : TaskEither ε (α → β)).ap (taskEither v)).run n).2)
          = (Either.right (fn v), n + 4))
    ∧ (((taskEither v : TaskEither ε α).zip (taskEither b)).run n
          = (Either.right (v, b), n + 2)
      ∧ ((taskEither v : TaskEither ε α).zip (taskEither b)).run
          ((((taskEither v : TaskEither ε α).zip (taskEither b)).run n).2)
          = (Either.right (v, b), n + 4))
    ∧ (((taskLeft e : TaskEither ε α).orElse (fun _ => taskEither v)).run n
          = (Either.right v, n + 2)
      ∧ ((taskLeft e : TaskEither ε α).orElse (fun _ => taskEither v)).run
          ((((taskLeft e : TaskEither ε α).orElse (fun _ => taskEither v)).run n).2)
          = (Either.right v, n + 4)) :=
  ⟨⟨rfl, rfl⟩, ⟨rfl, rfl⟩, ⟨rfl, rfl⟩, ⟨rfl, rfl⟩, ⟨rfl, rfl⟩⟩

/-- C8: Task's `all(tasks)` (modelled from the spec, the implementation
being absent from the snapshot) combines the elements' results in the
original input order once every element has resolved — running `all` over
the tasks produced from `vs` yields exactly `vs`, each element's producer
invoked once — and for the empty input it resolves immediately with the
empty sequence, invoking no producer. -/
theorem task_all_spec {α : Type} (vs : List α) (n : Nat) :
    (Task.all (vs.map Task.task)).run n = (vs, n + vs.length)
    ∧ (Task.all ([] : List (Task α))).run n = ([], n) := by
  constructor
  · show Task.allThunk (vs.map Task.task) n = (vs, n + vs.length)
    induction vs generalizing n with
    | nil => rfl
    | cons v rest ih =>
        simp only [List.map_cons, Task.allThunk, Task.run, Task.task, ih, List.length_cons]
        exact Prod.ext rfl (by omega)
  · rfl

/-- Running the producers of a `fromEither`-built list collects exactly the
given Eithers in order, invoking one producer per element. -/
theorem TaskEither.runAll_fromEither {ε α : Type} (rs : List (Either ε α)) (n : Nat) :
    TaskEither.runAll (rs.map TaskEither.fromEither) n = (rs, n + rs.length) := by
  induction rs generalizing n with
  | nil => rfl
  | cons r rest ih =>
      simp only [List.map_cons, TaskEither.runAll, TaskEither.run, TaskEither.fromEither,
        producerThunk, ih, List.length_cons]
      exact Prod.ext rfl (by omega)

/-- The combination loop of `all` over settled Eithers that are all Right
returns Right of the accumulator followed by all the Right payloads in
order. -/
theorem TaskEither.allLoop_rights {ε α : Type} (rs : List (Either ε α)) (out : List α)
    (h : ∀ r ∈ rs, r.isRight = true) :
    TaskEither.allLoop rs out = Either.right (out ++ Either.rightsOf rs) := by
  induction rs generalizing out with
  | nil => simp [TaskEither.allLoop, Either.rightsOf]
  | cons r rest ih =>
      cases r with
      | left e => exact absurd (h _ (List.mem_cons_self _ _)) (by simp [Either.isRight])
      | right v =>
          have := ih (out ++ [v]) (fun r hr => h r (List.mem_cons_of_mem _ hr))
          simp only [TaskEither.allLoop, Either.toResult, Either.matchWith, this,
            Either.rightsOf, List.append_assoc, List.singleton_append]

/-- The combination loop of `all` returns the Left of the lowest-index Left:
with all elements before it Right, the loop stops there. -/
theorem TaskEither.allLoop_first_left {ε α : Type} (pre : List (Either ε α)) (e : ε)
    (post : List (Either ε α)) (out : List α)
    (h : ∀ r ∈ pre, r.isRight = true) :
    TaskEither.allLoop (pre ++ Either.left e :: post) out = Either.left e := by
  induction pre generalizing out with
  | nil => rfl
  | cons r rest ih =>
      cases r with
      | left e' => exact absurd (h _ (List.mem_cons_self _ _)) (by simp [Either.isRight])
      | right v =>
          have := ih (out ++ [v]) (fun r hr => h r (List.mem_cons_of_mem _ hr))
          simpa only [List.cons_append, TaskEither.allLoop, Either.toResult,
            Either.matchWith] using this

/-- C6: running `all(taskEithers)` invokes every participant's producer and
combines after all have settled: when every element resolves Right the
result is Right of all success values in the callers' array order, and
otherwise it is the Left of the lowest-index element that resolved Left
(every element with a smaller index being Right). -/
theorem taskEither_all_spec {ε α : Type} (rs pre post : List (Either ε α)) (e : ε) (n : Nat) :
    ((∀ r ∈ rs, r.isRight = true) →
      (TaskEither.all (rs.map TaskEither.fromEither)).run n
        = (Either.right (Either.rightsOf rs), n + rs.length))
    ∧ ((∀ r ∈ pre, r.isRight = true) →
      (TaskEither.all ((pre ++ Either.left e :: post).map TaskEither.fromEither)).run n
        = (Either.left e, n + (pre.length + 1 + post.length))) := by
  constructor
  · intro h
    simp only [TaskEither.all, TaskEither.run, TaskEither.runAll_fromEither,
      TaskEither.allLoop_rights rs [] h, List.nil_append]
  · intro h
    simp only [TaskEither.all, TaskEither.run, TaskEither.runAll_fromEither,
      TaskEither.allLoop_first_left pre e post [] h, List.length_append,
      List.length_cons]
    exact Prod.ext rfl (by omega)

/-- Witness for C6 at the spec's concrete scenario:
`all([taskEither(1), taskLeft("err"), taskEither(3)]).run()` settles with
`Left("err")` after all three producers ran, and an all-Right list settles
with the ordered value array. -/
theorem taskEither_all_spec_witness :
    (TaskEither.all ([taskEither 1, taskEither 2] : List (TaskEither String Nat))).run 0
      = (Either.right [1, 2], 2)
    ∧ (TaskEither.all ([taskEither 1, taskLeft "err", taskEither 3] :
        List (TaskEither String Nat))).run 0
      = (Either.left "err", 3) := by
  constructor
  · exact (taskEither_all_spec [Either.right 1, Either.right 2] [] [] "x" 0).1 (by decide)
  · exact (taskEither_all_spec [] [Either.right 1] [Either.right 3] "err" 0).2 (by decide)

/-- One pass of the sequence loop: starting from accumulators `es`, `as`, the
fold appends every Invalid's errors to `es` and every Valid value to `as`,
in list order. -/
theorem Validation.foldl_sequenceStep {ε α : Type} (vs : List (Validation ε α))
    (es : List ε) (as : List α) :
    vs.foldl Validation.sequenceStep (es, as)
      = (es ++ (vs.map Validation.errsOf).flatten,
         as ++ (vs.map Validation.valsOf).flatten) := by
  induction vs generalizing es as with
  | nil => simp
  | cons v rest ih =>
      cases v with
      | invalid errs =>
          simp [List.foldl_cons, Validation.sequenceStep, Validation.matchWith,
            Validation.errsOf, Validation.valsOf, ih]
      | valid a =>
          simp [List.foldl_cons, Validation.sequenceStep, Validation.matchWith,
            Validation.errsOf, Validation.valsOf, ih]

/-- A wellformed Invalid carries at least one error. -/
theorem Validation.wfb_invalid_ne_nil {ε α : Type} {es : List ε}
    (h : (Validation.invalid es : Validation ε α).wfb = true) : es ≠ [] := by
  cases es with
  | nil => simp [Validation.wfb] at h
  | cons a t => exact List.cons_ne_nil a t

/-- C4: `sequence` inspects all Validations regardless of failures: when at
least one element is Invalid the result is one Invalid holding every Invalid
element's errors concatenated in list order, and when no element is Invalid
it is Valid holding all extracted values in the original order.  The
hypothesis is the data-model invariant that reachable Invalids carry
non-empty error arrays. -/
theorem validation_sequence_spec {ε α : Type} (vs : List (Validation ε α))
    (hwf : ∀ v ∈ vs, v.wfb = true) :
    ((∃ v ∈ vs, v.isInvalid = true) →
      Validation.sequence vs = Validation.invalid ((vs.map Validation.errsOf).flatten))
    ∧ ((∀ v ∈ vs, v.isInvalid = false) →
      Validation.sequence vs = Validation.valid ((vs.map Validation.valsOf).flatten)) := by
  have hfold := Validation.foldl_sequenceStep vs [] []
  constructor
  · rintro ⟨v, hv, hinv⟩
    have hne : Validation.errsOf v ≠ [] := by
      cases v with
      | invalid es => exact Validation.wfb_invalid_ne_nil (hwf _ hv)
      | valid a => simp [Validation.isInvalid] at hinv
    have hjoin : (vs.map Validation.errsOf).flatten ≠ [] := by
      intro hnil
      rw [List.flatten_eq_nil_iff] at hnil
      exact hne (hnil _ (List.mem_map_of_mem _ hv))
    have hpos : ((vs.map Validation.errsOf).flatten).length > 0 :=
      List.length_pos.mpr hjoin
    simp only [Validation.sequence, hfold, List.nil_append]
    rw [if_pos hpos]
  · intro hval
    have hjoin : (vs.map Validation.errsOf).flatten = [] := by
      rw [List.flatten_eq_nil_iff]
      intro l hl
      obtain ⟨v, hv, rfl⟩ := List.mem_map.mp hl
      cases v with
      | invalid es => simp [Validation.isInvalid] at hval; exact absurd (hval _ hv) (by simp)
      | valid a => rfl
    simp only [Validation.sequence, hfold, List.nil_append, hjoin]
    rfl

/-- Witness for C4 at the spec's concrete scenario:
`sequence([valid(1), invalid("e1"), invalid("e2")])` is `Invalid(["e1","e2"])`
and `sequence([valid(1), valid(2)])` is `Valid([1,2])`. -/
theorem validation_sequence_spec_witness :
    Validation.sequence [OkFp.valid 1, OkFp.invalid "e1", OkFp.invalid "e2"]
      = Validation.invalid ["e1", "e2"]
    ∧ Validation.sequence ([OkFp.valid 1, OkFp.valid 2] : List (Validation String Nat))
      = Validation.valid [1, 2] := by
  constructor
  · exact (validation_sequence_spec _ (by decide)).1 (by decide)
  · exact (validation_sequence_spec _ (by decide)).2 (by decide)

/-- Mapping preserves the non-empty-errors invariant: an Invalid's error
array passes through `map` unchanged. -/
theorem Validation.wfb_map {ε α β : Type} {x : Validation ε α} (f : α → β)
    (hx : x.wfb = true) : (x.map f).wfb = true := by
  cases x with
  | invalid es => exact hx
  | valid a => rfl

/-- `ap` preserves the non-empty-errors invariant: each Invalid branch of the
source's four-case dispatch either keeps one operand's error array or
concatenates the two, never truncating. -/
theorem Validation.wfb_ap {ε α β : Type} {xf : Validation ε (α → β)}
    {x : Validation ε α} (hxf : xf.wfb = true) (hx : x.wfb = true) :
    (xf.ap x).wfb = true := by
  cases xf with
  | invalid es1 =>
      cases x with
      | invalid es2 =>
          cases es1 with
          | nil => simp [Validation.wfb] at hxf
          | cons a t => rfl
      | valid v => exact hxf
  | valid fn =>
      cases x with
      | invalid es2 => exact hx
      | valid v => rfl

/-- `sequence` unconditionally satisfies the invariant: it only builds an
Invalid when the accumulated error array has positive length. -/
theorem Validation.wfb_sequence {ε α : Type} (vs : List (Validation ε α)) :
    (Validation.sequence vs).wfb = true := by
  simp only [Validation.sequence]
  by_cases h : ((vs.foldl Validation.sequenceStep ([], [])).1).length > 0
  · rw [if_pos h]
    cases hl : (vs.foldl Validation.sequenceStep ([], [])).1 with
    | nil => rw [hl] at h; simp at h
    | cons a t => rfl
  · rw [if_neg h]; rfl

/-- C7: every Validation reachable through the public constructors and
combinators satisfies the non-empty-errors invariant: `valid`/`invalid`/
`fromEither`/`fromOption` establish it (`invalid(e)` being exactly the
one-element array `[e]`), `map`/`ap`/`zip`/`filterOrElse`/`map2`/`map3`
preserve it and `sequence` satisfies it outright; and an Invalid receiver's
error array is only ever extended by concatenation at the end — `ap` yields
`Invalid(es ++ tail)` for some tail, never a truncation. -/
theorem validation_invalid_invariant {ε α β γ δ : Type}
    (a : α) (e : ε) (eth : Either ε α) (o : Option α) (onNone : Unit → ε)
    (x : Validation ε α) (xf : Validation ε (α → β)) (y : Validation ε β)
    (z : Validation ε γ) (p : α → Bool) (oi : Unit → ε) (f : α → β)
    (g : α → β → γ) (h3 : α → β → γ → δ) (es : List ε) (arg : Validation ε α)
    (vs : List (Validation ε α))
    (hx : x.wfb = true) (hxf : xf.wfb = true) (hy : y.wfb = true)
    (hz : z.wfb = true) :
    (OkFp.valid a : Validation ε α).wfb = true
    ∧ (OkFp.invalid e : Validation ε α) = Validation.invalid [e]
    ∧ (Validation.fromEither eth).wfb = true
    ∧ (Validation.fromOption o onNone).wfb = true
    ∧ (x.map f).wfb = true
    ∧ (xf.ap x).wfb = true
    ∧ (x.zip y).wfb = true
    ∧ (x.filterOrElse p oi).wfb = true
    ∧ (Validation.map2 x y g).wfb = true
    ∧ (Validation.map3 x y z h3).wfb = true
    ∧ (Validation.sequence vs).wfb = true
    ∧ (∃ tail, (Validation.invalid es : Validation ε (α → β)).ap arg
        = Validation.invalid (es ++ tail)) := by
  refine ⟨rfl, rfl, ?_, ?_, Validation.wfb_map f hx, Validation.wfb_ap hxf hx,
    Validation.wfb_ap (Validation.wfb_map _ hx) hy, ?_,
    Validation.wfb_ap (Validation.wfb_map _ hx) hy,
    Validation.wfb_ap (Validation.wfb_ap (Validation.wfb_map _ hx) hy) hz,
    Validation.wfb_sequence vs, ?_⟩
  · cases eth <;> rfl
  · cases o <;> rfl
  · cases x with
    | invalid es0 => exact hx
    | valid a0 =>
        by_cases hp : p a0 <;>
          simp [Validation.filterOrElse, Validation.matchWith, hp, Validation.wfb]
  · cases arg with
    | invalid es2 => exact ⟨es2, rfl⟩
    | valid v => exact ⟨[], by simp [Validation.ap, Validation.matchWith]⟩

/-- Witness for C7: the invariant facts at concrete inputs, the four
wellformedness hypotheses discharged on concrete Validations. -/
theorem validation_invalid_invariant_witness :
    ((OkFp.invalid 4 : Validation Nat Nat).wfb = true
      ∧ (Validation.valid (fun n : Nat => n) : Validation Nat (Nat → Nat)).wfb = true
      ∧ (OkFp.valid 5 : Validation Nat Nat).wfb = true
      ∧ (OkFp.valid 6 : Validation Nat Nat).wfb = true)
    ∧ ((OkFp.valid 0 : Validation Nat Nat).wfb = true
      ∧ (OkFp.invalid 1 : Validation Nat Nat) = Validation.invalid [1]
      ∧ (Validation.fromEither (Either.left 2 : Either Nat Nat)).wfb = true
      ∧ (Validation.fromOption (Option.none : Option Nat) (fun _ => 3)).wfb = true
      ∧ ((OkFp.invalid 4 : Validation Nat Nat).map (fun n => n + 1)).wfb = true
      ∧ ((Validation.valid (fun n : Nat => n) : Validation Nat (Nat → Nat)).ap
          (OkFp.invalid 4)).wfb = true
      ∧ ((OkFp.invalid 4 : Validation Nat Nat).zip (OkFp.valid 5)).wfb = true
      ∧ ((OkFp.invalid 4 : Validation Nat Nat).filterOrElse (fun _ => false)
          (fun _ => 7)).wfb = true
      ∧ (Validation.map2 (OkFp.invalid 4 : Validation Nat Nat) (OkFp.valid 5)
          (fun a b => a + b)).wfb = true
      ∧ (Validation.map3 (OkFp.invalid 4 : Validation Nat Nat) (OkFp.valid 5)
          (OkFp.valid 6) (fun a b c => a + b + c)).wfb = true
      ∧ (Validation.sequence [OkFp.invalid 10, OkFp.valid 11]).wfb = true
      ∧ (∃ tail, (Validation.invalid [8] : Validation Nat (Nat → Nat)).ap
          (OkFp.valid 9) = Validation.invalid ([8] ++ tail))) := by
  refine ⟨⟨rfl, rfl, rfl, rfl⟩, ?_⟩
  exact validation_invalid_invariant 0 1 (Either.left 2) Option.none (fun _ => 3)
    (OkFp.invalid 4) (Validation.valid (fun n => n)) (OkFp.valid 5) (OkFp.valid 6)
    (fun _ => false) (fun _ => 7) (fun n => n + 1) (fun a b => a + b)
    (fun a b c => a + b + c) [8] (OkFp.valid 9) [OkFp.invalid 10, OkFp.valid 11]
    rfl rfl rfl rfl

end OkFp
